import Mathlib

/-!
Verification of the team-builder core of the Random-Pokemon-Generator
repository (src/src/team.ts).  The definitions below are a shallow
embedding of the TypeScript source: the mutable globals `teamState` and
`localStorage` become an explicit `GameState` record threaded through the
operations, the asynchronous collaborators (`getEligiblePokemon`,
`chooseRandom`, the PokeAPI `fetch`) become oracle parameters, and JS
numbers are modelled as `Int` (with `Option Int` standing for a possibly
NaN value where `parseInt` is involved).  Presentation-only code (HTML
building, alerts) has no state effect and is not modelled.
-/

/-! ### JS primitives: whitespace, parseInt, Number.toString -/

/-- Characters treated as whitespace by JS `parseInt` (ASCII subset). -/
def isJsWs (c : Char) : Bool :=
  c == ' ' || c == '\t' || c == '\n' || c == '\r' || c == '\x0b' || c == '\x0c'

/-- Decimal digit test. -/
def isDigitChar (c : Char) : Bool := '0' ≤ c && c ≤ '9'

/-- Value of a decimal digit character. -/
def digitVal (c : Char) : Nat := c.toNat - 48

/-- Hexadecimal digit test. -/
def isHexDigitChar (c : Char) : Bool :=
  isDigitChar c || ('a' ≤ c && c ≤ 'f') || ('A' ≤ c && c ≤ 'F')

/-- Value of a hexadecimal digit character. -/
def hexVal (c : Char) : Nat :=
  if isDigitChar c then c.toNat - 48
  else if 'a' ≤ c && c ≤ 'f' then c.toNat - 87
  else c.toNat - 55

/-- Parse the longest prefix of digits (per `isD`) in the given base;
`none` models the JS NaN result when no digit is present. -/
def parseDigitsBase (isD : Char → Bool) (val : Char → Nat) (base : Nat)
    (l : List Char) : Option Nat :=
  match l.takeWhile isD with
  | [] => none
  | ds => some (ds.foldl (fun a c => a * base + val c) 0)

/-- Unsigned part of JS `parseInt`: a `0x`/`0X` prefix switches to base 16,
otherwise the longest decimal-digit prefix is parsed; trailing garbage is
ignored, and no digit at all yields NaN (`none`). -/
def parseUnsigned (l : List Char) : Option Nat :=
  match l with
  | c0 :: c1 :: rest =>
    if c0 == '0' && (c1 == 'x' || c1 == 'X') then
      parseDigitsBase isHexDigitChar hexVal 16 rest
    else parseDigitsBase isDigitChar digitVal 10 (c0 :: c1 :: rest)
  | _ => parseDigitsBase isDigitChar digitVal 10 l

/-- Model of JS `parseInt(s)` (radix unspecified): skip leading whitespace,
optional sign, then parse digits; `none` models NaN. -/
def parseIntJs (s : String) : Option Int :=
  match s.data.dropWhile isJsWs with
  | [] => none
  | c :: rest =>
    if c == '-' then (parseUnsigned rest).map (fun n => -(n : Int))
    else if c == '+' then (parseUnsigned rest).map (fun n => ((n : Nat) : Int))
    else (parseUnsigned (c :: rest)).map (fun n => ((n : Nat) : Int))

/-- Decimal digit character for a digit value. -/
def digitChar (d : Nat) : Char := Char.ofNat (48 + d)

/-- Decimal digits of `n`, least significant first, with explicit fuel so
that the definition is structurally recursive. -/
def natDigitsAux : Nat → Nat → List Nat
  | 0, _ => []
  | fuel + 1, n => if n < 10 then [n] else n % 10 :: natDigitsAux fuel (n / 10)

/-- Decimal digits of `n`, least significant first. -/
def natDigitsRev (n : Nat) : List Nat := natDigitsAux (n + 1) n

/-- Decimal rendering of a natural number, as JS `Number.prototype.toString`
produces for a non-negative integer. -/
def natToString (n : Nat) : String :=
  String.mk ((natDigitsRev n).reverse.map digitChar)

/-- Decimal rendering of an integer, as JS `Number.prototype.toString`
produces for an integral number. -/
def intToString (i : Int) : String :=
  if i < 0 then String.mk ('-' :: ((natDigitsRev i.natAbs).reverse.map digitChar))
  else natToString i.natAbs

/-! ### The string-keyed store (localStorage) -/

/-- Model of `localStorage`: an association list of string keys/values. -/
abbrev KVStore := List (String × String)

/-- Model of `localStorage.getItem` (null becomes `none`). -/
def getItem : KVStore → String → Option String
  | [], _ => none
  | (k', v) :: rest, k => if k' = k then some v else getItem rest k

/-- Model of `localStorage.setItem`: overwrite the existing binding or
append a fresh one. -/
def setItem : KVStore → String → String → KVStore
  | [], k, v => [(k, v)]
  | (k', v') :: rest, k, v =>
    if k' = k then (k, v) :: rest else (k', v') :: setItem rest k v

/-! ### Team mode and high-score persistence (team.ts lines 3-38) -/

/-- TeamMode from team.ts: `'visible' | 'hidden'`. -/
inductive TeamMode
  | visible
  | hidden
deriving DecidableEq, Repr

/-- String form of a mode, as interpolated into the storage key. -/
def TeamMode.str : TeamMode → String
  | .visible => "visible"
  | .hidden => "hidden"

/-- Source `getHighScoreKey`: the prefix constant "highScore_" followed by
the mode string. -/
def getHighScoreKey (mode : TeamMode) : String := "highScore_" ++ mode.str

/-- Source `loadHighScore`: `stored ? parseInt(stored) : 0` where a missing
key or empty string is falsy; `none` models a NaN result of `parseInt`. -/
def loadHighScore (store : KVStore) (mode : TeamMode) : Option Int :=
  match getItem store (getHighScoreKey mode) with
  | none => some 0
  | some s => if s = "" then some 0 else parseIntJs s

/-- Source `saveHighScore`: stores `score.toString()` under the mode key. -/
def saveHighScore (store : KVStore) (mode : TeamMode) (score : Int) : KVStore :=
  setItem store (getHighScoreKey mode) (intToString score)

/-! ### Stats data model (team.ts CoreStatKey / PokemonStats / GeneratedPokemon) -/

/-- CoreStatKey: the closed set of six stat keys. -/
inductive CoreStatKey
  | hp
  | attack
  | defense
  | specialAttack
  | specialDefense
  | speed
deriving DecidableEq, Repr

/-- PokemonStats: the six core stats plus optional sprite URLs.  The stat
fields are `Option Int` so that a bundle can lack a key, matching the
defensive `stats[stat] ?? 0` read in `selectStat`; the sprite fields are
`Option String` because the fallback bundle omits them entirely. -/
structure PokemonStats where
  hp : Option Int
  attack : Option Int
  defense : Option Int
  specialAttack : Option Int
  specialDefense : Option Int
  speed : Option Int
  spriteUrl : Option String
  shinySpriteUrl : Option String
deriving DecidableEq, Repr

/-- Index a stat bundle by key, as `stats[stat]` does. -/
def PokemonStats.get (s : PokemonStats) : CoreStatKey → Option Int
  | .hp => s.hp
  | .attack => s.attack
  | .defense => s.defense
  | .specialAttack => s.specialAttack
  | .specialDefense => s.specialDefense
  | .speed => s.speed

/-- GeneratedPokemon, restricted to the fields the team-builder logic reads
or writes (id, name, baseName, stats, selectedStat, selectedStatValue);
the remaining fields (shiny, gender, nature, showName, showSprite) only
feed HTML rendering and are omitted. -/
structure GeneratedPokemon where
  id : Nat
  name : String
  baseName : String
  stats : Option PokemonStats
  selectedStat : Option CoreStatKey
  selectedStatValue : Option Int
deriving DecidableEq, Repr

/-! ### Form-slug derivation inside fetchPokemonStats (team.ts lines 44-75) -/

/-- Model of JS `toLowerCase` restricted to the characters the slug pipeline
can distinguish: ASCII letters are lowered and the two accented capitals the
accent-replacement regex cares about map to their lowercase forms; every
other character is left unchanged (it is removed by the later filter in both
JS and this model). -/
def jsLowerChar (c : Char) : Char :=
  if c = 'É' then 'é' else if c = 'È' then 'è' else c.toLower

/-- Replacement `[éè] → e` of the source regex. -/
def accentToE (c : Char) : Char := if c = 'é' ∨ c = 'è' then 'e' else c

/-- Characters kept by the `[^a-z0-9\s-]` removal regex. -/
def slugKeep (c : Char) : Bool :=
  ('a' ≤ c && c ≤ 'z') || ('0' ≤ c && c ≤ '9') || isJsWs c || c == '-'

/-- Replacement of every whitespace run by a single hyphen (`\s+` → `-`),
carrying a flag for whether the previous character was whitespace. -/
def collapseWsAux : Bool → List Char → List Char
  | _, [] => []
  | prevWs, c :: rest =>
    if isJsWs c then
      if prevWs then collapseWsAux true rest else '-' :: collapseWsAux true rest
    else c :: collapseWsAux false rest

/-- Replacement of every whitespace run by a single hyphen. -/
def collapseWs (l : List Char) : List Char := collapseWsAux false l

/-- The slug pipeline of the source, in order: `toLowerCase`, `[éè] → e`,
remove `[^a-z0-9\s-]`, `\s+ → -`. -/
def slugify (l : List Char) : List Char :=
  collapseWs (((l.map jsLowerChar).map accentToE).filter slugKeep)

/-- Base slug: the part of the form name before the first space character
(JS `split(' ')[0]`), sent through the slug pipeline. -/
def baseSlugOf (fn : String) : List Char :=
  slugify (fn.data.takeWhile (fun c => c ≠ ' '))

/-- Form slug: the whole form name through the slug pipeline. -/
def formSlugOf (fn : String) : List Char := slugify fn.data

/-- JS `String.prototype.includes` on character lists: the pattern occurs
as a contiguous segment when it prefixes some suffix of the text. -/
def listContains : List Char → List Char → Bool
  | [], pat => pat.isEmpty
  | c :: rest, pat => pat.isPrefixOf (c :: rest) || listContains rest pat

/-- The identifier built inside `fetchPokemonStats` (team.ts lines 44-75):
a numeric id when no (or an empty, hence falsy) form name is given,
otherwise the first matching rule of the mega/gigantamax/region heuristics,
and the full form slug when nothing matches. -/
def derivePokemonIdentifier (pokemonId : Nat) (formName : Option String) : String :=
  match formName with
  | none => natToString pokemonId
  | some fn =>
    if fn = "" then natToString pokemonId
    else
      let baseSlug := baseSlugOf fn
      let formSlug := formSlugOf fn
      if listContains formSlug ("mega-x".data) then String.mk (baseSlug ++ ("-mega-x".data))
      else if listContains formSlug ("mega-y".data) then String.mk (baseSlug ++ ("-mega-y".data))
      else if listContains formSlug ("mega".data) then String.mk (baseSlug ++ ("-mega".data))
      else if listContains formSlug ("gigantamax".data) then String.mk (baseSlug ++ ("-gmax".data))
      else if listContains formSlug ("alola".data) then String.mk (baseSlug ++ ("-alola".data))
      else if listContains formSlug ("galar".data) then String.mk (baseSlug ++ ("-galar".data))
      else if listContains formSlug ("hisui".data) then String.mk (baseSlug ++ ("-hisui".data))
      else if listContains formSlug ("paldea".data) then String.mk (baseSlug ++ ("-paldea".data))
      else String.mk formSlug

/-! ### The PokeAPI fetch model (team.ts lines 41-118) -/

/-- Well-formed or malformed body of a successful HTTP response: `malformed`
stands for any JSON on which `data.stats.forEach` throws, `wellFormed`
carries the `(stat.stat.name, stat.base_stat)` pairs in order plus the four
sprite fields read by the source. -/
inductive ApiData
  | malformed
  | wellFormed (stats : List (String × Int))
      (officialFrontDefault : Option String) (officialFrontShiny : Option String)
      (frontDefault : Option String) (frontShiny : Option String)

/-- Outcome of `fetch` on a URL: a rejected promise (network error or a
body that fails to parse as JSON), or a response with its `ok` flag. -/
inductive FetchOutcome
  | throwErr
  | response (ok : Bool) (data : ApiData)

/-- JS `a || b` on an optional string against a string default: an absent
or empty string is falsy. -/
def jsOr (a : Option String) (b : String) : String :=
  match a with
  | none => b
  | some s => if s = "" then b else s

/-- The `statsMap[name]` read: the value of the last pair carrying the key
(later `forEach` assignments overwrite earlier ones), or `none`. -/
def statsMapLookup (stats : List (String × Int)) (key : String) : Option Int :=
  (stats.reverse.find? (fun e => e.1 == key)).map (fun e => e.2)

/-- JS `x || 0` on an optional number, as used for the six stat reads.
A stored 0 is falsy in JS and `0 || 0 = 0`, so `getD 0` is exact. -/
def numOrZero (v : Option Int) : Int := v.getD 0

/-- The body of the `try` block of `fetchPokemonStats` after the URL is
fixed: any failure (rejected fetch, non-ok response, malformed body) is an
exception, otherwise the stat bundle is assembled from the response. -/
def fetchPokemonStatsTry (outcome : FetchOutcome) : Except Unit PokemonStats :=
  match outcome with
  | .throwErr => .error ()
  | .response false _ => .error ()
  | .response true .malformed => .error ()
  | .response true (.wellFormed stats offD offS frD frS) =>
    .ok {
      hp := some (numOrZero (statsMapLookup stats "hp"))
      attack := some (numOrZero (statsMapLookup stats "attack"))
      defense := some (numOrZero (statsMapLookup stats "defense"))
      specialAttack := some (numOrZero (statsMapLookup stats "special-attack"))
      specialDefense := some (numOrZero (statsMapLookup stats "special-defense"))
      speed := some (numOrZero (statsMapLookup stats "speed"))
      spriteUrl := some (jsOr offD (jsOr frD ""))
      shinySpriteUrl := some (jsOr offS (jsOr frS "")) }

/-- The default bundle returned by the `catch` block: all six stats 50 and
no sprite fields (rendered as the empty URL by every consumer). -/
def defaultPokemonStats : PokemonStats :=
  { hp := some 50, attack := some 50, defense := some 50,
    specialAttack := some 50, specialDefense := some 50, speed := some 50,
    spriteUrl := none, shinySpriteUrl := none }

/-- Whether a fetch outcome makes the `try` block of `fetchPokemonStats`
throw internally. -/
def fetchFails (outcome : FetchOutcome) : Bool :=
  match outcome with
  | .throwErr => true
  | .response false _ => true
  | .response true .malformed => true
  | .response true (.wellFormed _ _ _ _ _) => false

/-- The URL requested for a given id and optional form name. -/
def pokeApiUrl (pokemonId : Nat) (formName : Option String) : String :=
  "https://pokeapi.co/api/v2/pokemon/" ++ derivePokemonIdentifier pokemonId formName

/-- Source `fetchPokemonStats`, with the network modelled as an oracle from
URLs to fetch outcomes.  The function is total: every internal failure is
caught and replaced by the default bundle, so no error ever propagates. -/
def fetchPokemonStats (oracle : String → FetchOutcome) (pokemonId : Nat)
    (formName : Option String) : PokemonStats :=
  match fetchPokemonStatsTry (oracle (pokeApiUrl pokemonId formName)) with
  | .ok s => s
  | .error _ => defaultPokemonStats

/-! ### The team session state machine (team.ts lines 5-25, 121-219) -/

/-- TEAM_SIZE constant. -/
def TEAM_SIZE : Nat := 6

/-- DEFAULT_TEAM_MODE constant. -/
def DEFAULT_TEAM_MODE : TeamMode := TeamMode.visible

/-- TeamState from team.ts: the mutable global session record. -/
structure TeamState where
  currentPokemon : Option GeneratedPokemon
  team : List GeneratedPokemon
  currentScore : Int
  highScore : Int
  usedStats : Finset CoreStatKey
  mode : TeamMode
deriving DecidableEq

/-- The session together with the persistent store it reads and writes. -/
structure GameState where
  team : TeamState
  store : KVStore
deriving DecidableEq

/-- Source `selectStat` (team.ts lines 154-195): reject when no candidate
with stats is pending or the stat is already used; otherwise stamp the
candidate, mark the stat used, add the value to the score, append to the
team, update and persist the high score when exceeded, and clear the
candidate.  The trailing auto-chained `generateTeamPokemon()` call awaits
the external collaborators and is modelled as a separate transition. -/
def selectStat (g : GameState) (stat : CoreStatKey) : GameState :=
  match g.team.currentPokemon with
  | none => g
  | some p =>
    match p.stats with
    | none => g
    | some st =>
      if stat ∈ g.team.usedStats then g
      else
        let statValue := (st.get stat).getD 0
        let stamped : GeneratedPokemon :=
          { p with selectedStat := some stat, selectedStatValue := some statValue }
        let newScore := g.team.currentScore + statValue
        let t : TeamState :=
          { g.team with
            currentPokemon := none
            team := g.team.team ++ [stamped]
            currentScore := newScore
            usedStats := insert stat g.team.usedStats }
        if newScore > g.team.highScore then
          { team := { t with highScore := newScore }
            store := saveHighScore g.store g.team.mode newScore }
        else
          { g with team := t }

/-- Source `startNewTeam` (team.ts lines 198-210): clear team, score,
candidate and used stats; optionally zero and persist the high score. -/
def startNewTeam (g : GameState) (resetHighScore : Bool) : GameState :=
  let t : TeamState :=
    { g.team with
      team := []
      currentScore := 0
      currentPokemon := none
      usedStats := ∅ }
  if resetHighScore then
    { team := { t with highScore := 0 }
      store := saveHighScore g.store g.team.mode 0 }
  else
    { g with team := t }

/-- Source `setTeamMode` (team.ts lines 213-219): a no-op on the current
mode, otherwise switch the mode and start a new team with a high-score
reset (persisting 0 under the new mode's key). -/
def setTeamMode (g : GameState) (mode : TeamMode) : GameState :=
  if g.team.mode = mode then g
  else startNewTeam { g with team := { g.team with mode := mode } } true

/-- Outcome of the candidate-generation collaborators inside
`generateTeamPokemon`: `err` when `getEligiblePokemon`/`chooseRandom`
throws, `empty` when they yield no candidate, `found` otherwise. -/
inductive GenOutcome
  | err
  | empty
  | found (p : GeneratedPokemon)

/-- Source `generateTeamPokemon` (team.ts lines 121-151): an early return
when the team is full; on a thrown error or an empty result only the UI is
updated (`displayPokemon(null)`), leaving the whole state - including
`currentPokemon` - unchanged; on a candidate, stats are fetched (passing
the display name as form name when it differs from the base name) and the
candidate becomes current. -/
def generateTeamPokemon (g : GameState) (outcome : GenOutcome)
    (oracle : String → FetchOutcome) : GameState :=
  if g.team.team.length ≥ TEAM_SIZE then g
  else
    match outcome with
    | .err => g
    | .empty => g
    | .found p =>
      let formName : Option String := if p.baseName ≠ p.name then some p.name else none
      let st := fetchPokemonStats oracle p.id formName
      { g with team := { g.team with currentPokemon := some { p with stats := some st } } }

/-- The session as created at page load (team.ts lines 18-25), with the
high score already loaded from storage for the default mode; `h` is the
loaded integer (reachability couples it to `loadHighScore`). -/
def initState (store : KVStore) (h : Int) : GameState :=
  { team :=
      { currentPokemon := none
        team := []
        currentScore := 0
        highScore := h
        usedStats := ∅
        mode := DEFAULT_TEAM_MODE }
    store := store }

/-- One user-visible transition: the four operations exposed on `window`
(team.ts lines 482-485), with the collaborator outcomes as parameters. -/
inductive TeamStep : GameState → GameState → Prop
  | select (g : GameState) (stat : CoreStatKey) : TeamStep g (selectStat g stat)
  | generate (g : GameState) (outcome : GenOutcome) (oracle : String → FetchOutcome) :
      TeamStep g (generateTeamPokemon g outcome oracle)
  | newTeam (g : GameState) (reset : Bool) : TeamStep g (startNewTeam g reset)
  | setMode (g : GameState) (mode : TeamMode) : TeamStep g (setTeamMode g mode)

/-- States reachable from a given state by the exposed operations. -/
inductive ReachFrom (g0 : GameState) : GameState → Prop
  | refl : ReachFrom g0 g0
  | step {g g' : GameState} : ReachFrom g0 g → TeamStep g g' → ReachFrom g0 g'

/-- Reachable session states: everything obtainable from a page load whose
stored high score parses to an integer (a NaN initial load is not
representable in the `Int`-valued state). -/
def TeamReachable (g : GameState) : Prop :=
  ∃ store h, loadHighScore store DEFAULT_TEAM_MODE = some h ∧
    ReachFrom (initState store h) g

/-- Reachable session states whose initially loaded high score is
non-negative, as is the case whenever the stored value was produced by the
application itself. -/
def TeamReachableNN (g : GameState) : Prop :=
  ∃ store h, 0 ≤ h ∧ loadHighScore store DEFAULT_TEAM_MODE = some h ∧
    ReachFrom (initState store h) g

/-- The committed state produced by a successful `selectStat`, written out
as an explicit record. -/
def commitState (g : GameState) (stat : CoreStatKey) (p : GeneratedPokemon)
    (st : PokemonStats) : GameState :=
  { team :=
      { currentPokemon := none
        team := g.team.team ++
          [{ p with selectedStat := some stat,
                    selectedStatValue := some ((st.get stat).getD 0) }]
        currentScore := g.team.currentScore + (st.get stat).getD 0
        highScore :=
          if g.team.currentScore + (st.get stat).getD 0 > g.team.highScore then
            g.team.currentScore + (st.get stat).getD 0
          else g.team.highScore
        usedStats := insert stat g.team.usedStats
        mode := g.team.mode }
    store :=
      if g.team.currentScore + (st.get stat).getD 0 > g.team.highScore then
        saveHighScore g.store g.team.mode
          (g.team.currentScore + (st.get stat).getD 0)
      else g.store }

/-! ### Structural invariants of reachable states -/

/-- Sum of the committed stat values over a roster. -/
def teamScoreSum (l : List GeneratedPokemon) : Int :=
  (l.map (fun p => p.selectedStatValue.getD 0)).sum

/-- Structural invariant: the score is the roster sum, committed stats are
pairwise distinct and recorded in `usedStats`, the roster never exceeds
`TEAM_SIZE`, and a full roster has no pending candidate. -/
def InvCore (g : GameState) : Prop :=
  g.team.currentScore = teamScoreSum g.team.team
  ∧ (g.team.team.map (fun p => p.selectedStat)).Nodup
  ∧ (∀ p ∈ g.team.team, ∃ k, p.selectedStat = some k ∧ k ∈ g.team.usedStats)
  ∧ g.team.team.length ≤ TEAM_SIZE
  ∧ (g.team.team.length = TEAM_SIZE → g.team.currentPokemon = none)

/-- Score invariant: with a non-negative initial high score, the high score
stays non-negative and bounds the current score in every reachable state. -/
def InvScore (g : GameState) : Prop :=
  0 ≤ g.team.highScore ∧ g.team.currentScore ≤ g.team.highScore

/-! ### Specification-side identifier policy (spec section 4.2) -/

/-- Rule table of the specification's identifier policy, in the order the
spec lists them: a pattern the form slug must contain, and the suffix
appended to the base slug when it is the first match. -/
def policyRules : List (List Char × List Char) :=
  [("mega-x".data, "-mega-x".data),
   ("mega-y".data, "-mega-y".data),
   ("mega".data, "-mega".data),
   ("gigantamax".data, "-gmax".data),
   ("alola".data, "-alola".data),
   ("galar".data, "-galar".data),
   ("hisui".data, "-hisui".data),
   ("paldea".data, "-paldea".data)]

/-- First rule of the table whose pattern occurs in the form slug. -/
def firstMatch (formSlug : List Char) : List (List Char × List Char) → Option (List Char)
  | [] => none
  | (pat, suffix) :: rest =>
    if listContains formSlug pat then some suffix else firstMatch formSlug rest

/-- Stated from the specification's words (spec 4.2): normalize to a base
slug and a full form slug, apply the first matching rule of the ordered
table, fall back to the full form slug, and use the numeric id when no
form name is supplied (a JS empty string is falsy and counts as not
supplied). -/
def identifierPolicySpec (pokemonId : Nat) (formName : Option String) : String :=
  match formName with
  | none => natToString pokemonId
  | some fn =>
    if fn = "" then natToString pokemonId
    else
      match firstMatch (formSlugOf fn) policyRules with
      | some suffix => String.mk (baseSlugOf fn ++ suffix)
      | none => String.mk (formSlugOf fn)

/-! ### Sample states used to instantiate the theorems -/

/-- Oracle on which every fetch rejects. -/
def orcFail : String → FetchOutcome := fun _ => FetchOutcome.throwErr

/-- A minimal candidate whose display name equals its base name. -/
def samplePokemon : GeneratedPokemon :=
  { id := 1, name := "a", baseName := "a", stats := none,
    selectedStat := none, selectedStatValue := none }

/-- The candidate after stats are attached by a failing fetch. -/
def samplePokemonWithStats : GeneratedPokemon :=
  { samplePokemon with stats := some defaultPokemonStats }

/-- Fresh session over an empty store. -/
def sampleG0 : GameState := initState [] 0

/-- The fresh session after one generation step (failing stat fetch). -/
def sampleG1 : GameState :=
  generateTeamPokemon sampleG0 (GenOutcome.found samplePokemon) orcFail

/-- The session after additionally committing the hp stat. -/
def sampleG2 : GameState := selectStat sampleG1 CoreStatKey.hp

/-- An arbitrary state whose roster already holds six members. -/
def sampleFullG : GameState :=
  { team :=
      { currentPokemon := none
        team := List.replicate 6 samplePokemon
        currentScore := 0
        highScore := 0
        usedStats := ∅
        mode := TeamMode.visible }
    store := [] }

/-! ### Round-trip lemmas for the persistence layer -/

theorem digitChar_props : ∀ d, d < 10 →
    isDigitChar (digitChar d) = true ∧ digitVal (digitChar d) = d ∧
    isJsWs (digitChar d) = false ∧ (digitChar d == '-') = false ∧
    (digitChar d == '+') = false ∧ (digitChar d == 'x') = false ∧
    (digitChar d == 'X') = false ∧ (digitChar d == '0') = (decide (d = 0)) := by
  decide

theorem natDigitsAux_lt10 : ∀ fuel n, ∀ d ∈ natDigitsAux fuel n, d < 10 := by
  intro fuel
  induction fuel with
  | zero => intro n d hd; simp [natDigitsAux] at hd
  | succ fuel ih =>
    intro n d hd
    by_cases h : n < 10
    · simp [natDigitsAux, h] at hd; omega
    · simp [natDigitsAux, h] at hd
      rcases hd with h1 | h2
      · omega
      · exact ih _ _ h2

theorem natDigitsAux_ne_nil (fuel n : Nat) (h : n < fuel) :
    natDigitsAux fuel n ≠ [] := by
  cases fuel with
  | zero => omega
  | succ fuel =>
    simp only [natDigitsAux]
    split <;> simp

theorem foldl_rev_digits : ∀ fuel n acc, n < fuel →
    ((natDigitsAux fuel n).reverse).foldl (fun a d => a * 10 + d) acc
      = acc * 10 ^ (natDigitsAux fuel n).length + n := by
  intro fuel
  induction fuel with
  | zero => intro n acc h; omega
  | succ fuel ih =>
    intro n acc h
    by_cases h10 : n < 10
    · simp [natDigitsAux, h10]
    · have hdiv : n / 10 < fuel := by
        have h1 : n / 10 < n := Nat.div_lt_self (by omega) (by omega)
        omega
      simp only [natDigitsAux, if_neg h10, List.reverse_cons, List.foldl_append,
        List.foldl_cons, List.foldl_nil, List.length_cons]
      rw [ih (n / 10) acc hdiv]
      have hmod : n % 10 + 10 * (n / 10) = n := Nat.mod_add_div n 10
      ring_nf
      omega

theorem foldl_map_digitChar : ∀ (l : List Nat) (acc : Nat), (∀ d ∈ l, d < 10) →
    (l.map digitChar).foldl (fun a c => a * 10 + digitVal c) acc
      = l.foldl (fun a d => a * 10 + d) acc := by
  intro l
  induction l with
  | nil => intro acc _; rfl
  | cons d rest ih =>
    intro acc hall
    have hd : d < 10 := hall d (by simp)
    simp only [List.map_cons, List.foldl_cons]
    rw [(digitChar_props d hd).2.1]
    exact ih _ (fun x hx => hall x (by simp [hx]))

theorem takeWhile_all_digits : ∀ (l : List Char), (∀ c ∈ l, isDigitChar c = true) →
    l.takeWhile isDigitChar = l := by
  intro l
  induction l with
  | nil => intro _; rfl
  | cons c rest ih =>
    intro hall
    simp only [List.takeWhile_cons, hall c (by simp), if_true]
    rw [ih (fun x hx => hall x (by simp [hx]))]

theorem parseDigitsBase_all (l : List Char) (hne : l ≠ [])
    (hall : ∀ c ∈ l, isDigitChar c = true) :
    parseDigitsBase isDigitChar digitVal 10 l
      = some (l.foldl (fun a c => a * 10 + digitVal c) 0) := by
  unfold parseDigitsBase
  rw [takeWhile_all_digits l hall]
  cases l with
  | nil => exact absurd rfl hne
  | cons c rest => rfl

/-- On a list of decimal digit characters the hex branch of `parseUnsigned`
is never taken and everything is consumed. -/
theorem parseUnsigned_digits (n : Nat) :
    parseUnsigned ((natDigitsRev n).reverse.map digitChar) = some n := by
  have hlt : ∀ d ∈ (natDigitsRev n).reverse, d < 10 := by
    intro d hd
    exact natDigitsAux_lt10 (n + 1) n d (List.mem_reverse.mp hd)
  have hall : ∀ c ∈ (natDigitsRev n).reverse.map digitChar, isDigitChar c = true := by
    intro c hc
    rcases List.mem_map.mp hc with ⟨d, hd, rfl⟩
    exact (digitChar_props d (hlt d hd)).1
  have hne : (natDigitsRev n).reverse.map digitChar ≠ [] := by
    simp only [ne_eq, List.map_eq_nil, List.reverse_eq_nil_iff]
    exact natDigitsAux_ne_nil (n + 1) n (by omega)
  have hfold : ((natDigitsRev n).reverse.map digitChar).foldl
      (fun a c => a * 10 + digitVal c) 0 = n := by
    rw [foldl_map_digitChar _ _ hlt]
    have h := foldl_rev_digits (n + 1) n 0 (by omega)
    simpa using h
  have hdec := parseDigitsBase_all _ hne hall
  unfold parseUnsigned
  cases hL : (natDigitsRev n).reverse.map digitChar with
  | nil => exact absurd hL hne
  | cons c0 tail =>
    cases tail with
    | nil =>
      rw [hL] at hdec hfold
      simpa [hfold] using hdec
    | cons c1 rest =>
      have hc1 : isDigitChar c1 = true := by
        apply hall; rw [hL]; simp
      have hc1x : (c1 == 'x') = false ∧ (c1 == 'X') = false := by
        have : c1 ∈ (natDigitsRev n).reverse.map digitChar := by rw [hL]; simp
        rcases List.mem_map.mp this with ⟨d, hd, rfl⟩
        exact ⟨(digitChar_props d (hlt d hd)).2.2.2.2.2.1,
               (digitChar_props d (hlt d hd)).2.2.2.2.2.2.1⟩
      rw [hL] at hdec hfold
      simp only [hc1x.1, hc1x.2, Bool.or_self, Bool.and_false, Bool.false_eq_true,
        if_false]
      simpa [hfold] using hdec

theorem parseIntJs_natToString (n : Nat) : parseIntJs (natToString n) = some n := by
  have hlt : ∀ d ∈ (natDigitsRev n).reverse, d < 10 := by
    intro d hd
    exact natDigitsAux_lt10 (n + 1) n d (List.mem_reverse.mp hd)
  unfold parseIntJs natToString
  cases hL : (natDigitsRev n).reverse.map digitChar with
  | nil =>
    exfalso
    have := natDigitsAux_ne_nil (n + 1) n (by omega)
    simp only [List.map_eq_nil, List.reverse_eq_nil_iff] at hL
    exact this hL
  | cons c0 tail =>
    have hmem : c0 ∈ (natDigitsRev n).reverse.map digitChar := by rw [hL]; simp
    rcases List.mem_map.mp hmem with ⟨d, hd, hdc⟩
    have hdlt := hlt d hd
    have hprops := digitChar_props d hdlt
    have hws : isJsWs c0 = false := by rw [← hdc]; exact hprops.2.2.1
    have hminus : (c0 == '-') = false := by rw [← hdc]; exact hprops.2.2.2.1
    have hplus : (c0 == '+') = false := by rw [← hdc]; exact hprops.2.2.2.2.1
    simp only [List.dropWhile_cons, hws, Bool.false_eq_true, if_false,
      hminus, hplus]
    have := parseUnsigned_digits n
    rw [hL] at this
    simp [this]

theorem natToString_ne_empty (n : Nat) : natToString n ≠ "" := by
  unfold natToString
  intro h
  have hdata : ((natDigitsRev n).reverse.map digitChar) = ([] : List Char) :=
    congrArg String.data h
  simp only [List.map_eq_nil, List.reverse_eq_nil_iff] at hdata
  exact natDigitsAux_ne_nil (n + 1) n (by omega) hdata

theorem intToString_ne_empty (i : Int) : intToString i ≠ "" := by
  unfold intToString
  by_cases h : i < 0
  · simp only [h, if_true]
    intro hc
    have : ('-' :: ((natDigitsRev i.natAbs).reverse.map digitChar)) = ([] : List Char) :=
      congrArg String.data hc
    simp at this
  · simp only [h, if_false]
    exact natToString_ne_empty _

theorem parseIntJs_intToString (i : Int) : parseIntJs (intToString i) = some i := by
  unfold intToString
  by_cases h : i < 0
  · simp only [h, if_true]
    unfold parseIntJs
    have hws : isJsWs '-' = false := by decide
    have hm : ('-' == '-') = true := by decide
    simp only [String.data, List.dropWhile_cons, hws, Bool.false_eq_true, if_false,
      hm, if_true]
    rw [parseUnsigned_digits i.natAbs]
    exact congrArg some (show -((i.natAbs : Nat) : Int) = i by omega)
  · simp only [h, if_false]
    rw [parseIntJs_natToString]
    exact congrArg some (show ((i.natAbs : Nat) : Int) = i by omega)

/-! ### Store lemmas -/

theorem getItem_setItem_same : ∀ (st : KVStore) (k v : String),
    getItem (setItem st k v) k = some v := by
  intro st
  induction st with
  | nil => intro k v; simp [setItem, getItem]
  | cons e rest ih =>
    intro k v
    obtain ⟨k', v'⟩ := e
    by_cases h : k' = k
    · simp [setItem, getItem, h]
    · simp [setItem, getItem, h, ih]

theorem getItem_setItem_ne : ∀ (st : KVStore) (k k' v : String), k ≠ k' →
    getItem (setItem st k v) k' = getItem st k' := by
  intro st
  induction st with
  | nil => intro k k' v hne; simp [setItem, getItem, hne]
  | cons e rest ih =>
    intro k k' v hne
    obtain ⟨k0, v0⟩ := e
    by_cases h : k0 = k
    · subst h
      simp [setItem, getItem, hne]
    · simp [setItem, getItem, h, ih _ _ _ hne]

theorem getHighScoreKey_injective (m m' : TeamMode) (h : m ≠ m') :
    getHighScoreKey m ≠ getHighScoreKey m' := by
  cases m <;> cases m' <;> first
    | exact absurd rfl h
    | decide

/-! ### Case analysis of selectStat -/

theorem selectStat_no_candidate (g : GameState) (stat : CoreStatKey)
    (h : g.team.currentPokemon = none) : selectStat g stat = g := by
  simp only [selectStat, h]

theorem selectStat_no_stats (g : GameState) (stat : CoreStatKey)
    (p : GeneratedPokemon) (hcp : g.team.currentPokemon = some p)
    (hst : p.stats = none) : selectStat g stat = g := by
  simp only [selectStat, hcp, hst]

theorem selectStat_used (g : GameState) (stat : CoreStatKey)
    (hmem : stat ∈ g.team.usedStats) : selectStat g stat = g := by
  cases hcp : g.team.currentPokemon with
  | none => simp only [selectStat, hcp]
  | some p =>
    cases hst : p.stats with
    | none => simp only [selectStat, hcp, hst]
    | some st =>
      simp only [selectStat, hcp, hst]
      simp [hmem]

theorem selectStat_commit (g : GameState) (stat : CoreStatKey)
    (p : GeneratedPokemon) (st : PokemonStats)
    (hcp : g.team.currentPokemon = some p) (hst : p.stats = some st)
    (hmem : stat ∉ g.team.usedStats) :
    selectStat g stat = commitState g stat p st := by
  simp only [selectStat, commitState, hcp, hst]
  by_cases hgt : g.team.currentScore + (st.get stat).getD 0 > g.team.highScore <;>
    simp [hmem, hgt, hst]

theorem invCore_selectStat (g : GameState) (stat : CoreStatKey)
    (h : InvCore g) : InvCore (selectStat g stat) := by
  cases hcp : g.team.currentPokemon with
  | none => rw [selectStat_no_candidate g stat hcp]; exact h
  | some p =>
    cases hst : p.stats with
    | none => rw [selectStat_no_stats g stat p hcp hst]; exact h
    | some st =>
      by_cases hmem : stat ∈ g.team.usedStats
      · rw [selectStat_used g stat hmem]; exact h
      · rw [selectStat_commit g stat p st hcp hst hmem]
        obtain ⟨hsum, hnodup, hused, hlen, hfull⟩ := h
        have hlen5 : g.team.team.length < TEAM_SIZE := by
          rcases Nat.lt_or_ge g.team.team.length TEAM_SIZE with h1 | h1
          · exact h1
          · exfalso
            have : g.team.team.length = TEAM_SIZE := by omega
            rw [hfull this] at hcp
            cases hcp
        have hnotin : (some stat) ∉ g.team.team.map (fun q => q.selectedStat) := by
          intro hmm
          rcases List.mem_map.mp hmm with ⟨q, hq, hqs⟩
          rcases hused q hq with ⟨k, hk1, hk2⟩
          rw [hk1] at hqs
          injection hqs with he
          subst he
          exact hmem hk2
        refine ⟨?_, ?_, ?_, ?_, ?_⟩
        · simp only [commitState, teamScoreSum, List.map_append, List.sum_append,
            List.map_cons, List.map_nil, List.sum_cons, List.sum_nil]
          rw [hsum]
          simp [teamScoreSum]
        · simp only [commitState, List.map_append, List.map_cons, List.map_nil]
          rw [List.nodup_append]
          exact ⟨hnodup, List.nodup_singleton _, by
            intro a ha hb
            simp only [List.mem_singleton] at hb
            subst hb
            exact hnotin ha⟩
        · intro q hq
          simp only [commitState, List.mem_append, List.mem_singleton] at hq
          rcases hq with hq | hq
          · rcases hused q hq with ⟨k, hk1, hk2⟩
            exact ⟨k, hk1, Finset.mem_insert_of_mem hk2⟩
          · subst hq
            exact ⟨stat, rfl, Finset.mem_insert_self _ _⟩
        · simp only [commitState, List.length_append, List.length_cons,
            List.length_nil]
          omega
        · intro _
          rfl

theorem invCore_generate (g : GameState) (outcome : GenOutcome)
    (oracle : String → FetchOutcome) (h : InvCore g) :
    InvCore (generateTeamPokemon g outcome oracle) := by
  unfold generateTeamPokemon
  by_cases hfull : g.team.team.length ≥ TEAM_SIZE
  · rw [if_pos hfull]; exact h
  · rw [if_neg hfull]
    cases outcome with
    | err => exact h
    | empty => exact h
    | found p =>
      obtain ⟨hsum, hnodup, hused, hlen, _⟩ := h
      refine ⟨hsum, hnodup, hused, hlen, ?_⟩
      intro hl
      exfalso
      have hl2 : g.team.team.length = TEAM_SIZE := hl
      omega

theorem invCore_startNewTeam (g : GameState) (reset : Bool) :
    InvCore (startNewTeam g reset) := by
  unfold startNewTeam
  cases reset <;>
    simp [InvCore, teamScoreSum, TEAM_SIZE]

theorem invCore_setTeamMode (g : GameState) (mode : TeamMode)
    (h : InvCore g) : InvCore (setTeamMode g mode) := by
  unfold setTeamMode
  by_cases hm : g.team.mode = mode
  · rw [if_pos hm]; exact h
  · rw [if_neg hm]; exact invCore_startNewTeam _ _

theorem invCore_step {g g' : GameState} (h : InvCore g) (s : TeamStep g g') :
    InvCore g' := by
  cases s with
  | select stat => exact invCore_selectStat _ stat h
  | generate outcome oracle => exact invCore_generate _ outcome oracle h
  | newTeam reset => exact invCore_startNewTeam _ reset
  | setMode mode => exact invCore_setTeamMode _ mode h

theorem invCore_init (store : KVStore) (h : Int) : InvCore (initState store h) := by
  refine ⟨rfl, List.nodup_nil, ?_, ?_, ?_⟩ <;>
    simp [initState, TEAM_SIZE]

theorem invCore_reachFrom {g0 g : GameState} (h0 : InvCore g0)
    (r : ReachFrom g0 g) : InvCore g := by
  induction r with
  | refl => exact h0
  | step _ s ih => exact invCore_step ih s

theorem invCore_reachable {g : GameState} (h : TeamReachable g) : InvCore g := by
  obtain ⟨store, hs, _, hr⟩ := h
  exact invCore_reachFrom (invCore_init store hs) hr

theorem invScore_selectStat (g : GameState) (stat : CoreStatKey)
    (h : InvScore g) : InvScore (selectStat g stat) := by
  cases hcp : g.team.currentPokemon with
  | none => rw [selectStat_no_candidate g stat hcp]; exact h
  | some p =>
    cases hst : p.stats with
    | none => rw [selectStat_no_stats g stat p hcp hst]; exact h
    | some st =>
      by_cases hmem : stat ∈ g.team.usedStats
      · rw [selectStat_used g stat hmem]; exact h
      · rw [selectStat_commit g stat p st hcp hst hmem]
        obtain ⟨h0, hle⟩ := h
        by_cases hgt : g.team.currentScore + (st.get stat).getD 0 > g.team.highScore
        · constructor
          · show (0 : Int) ≤ if g.team.currentScore + (st.get stat).getD 0 > g.team.highScore
              then g.team.currentScore + (st.get stat).getD 0 else g.team.highScore
            rw [if_pos hgt]
            omega
          · show (g.team.currentScore + (st.get stat).getD 0 : Int) ≤
              if g.team.currentScore + (st.get stat).getD 0 > g.team.highScore
              then g.team.currentScore + (st.get stat).getD 0 else g.team.highScore
            rw [if_pos hgt]
        · constructor
          · show (0 : Int) ≤ if g.team.currentScore + (st.get stat).getD 0 > g.team.highScore
              then g.team.currentScore + (st.get stat).getD 0 else g.team.highScore
            rw [if_neg hgt]
            exact h0
          · show (g.team.currentScore + (st.get stat).getD 0 : Int) ≤
              if g.team.currentScore + (st.get stat).getD 0 > g.team.highScore
              then g.team.currentScore + (st.get stat).getD 0 else g.team.highScore
            rw [if_neg hgt]
            omega

theorem invScore_generate (g : GameState) (outcome : GenOutcome)
    (oracle : String → FetchOutcome) (h : InvScore g) :
    InvScore (generateTeamPokemon g outcome oracle) := by
  unfold generateTeamPokemon
  by_cases hfull : g.team.team.length ≥ TEAM_SIZE
  · rw [if_pos hfull]; exact h
  · rw [if_neg hfull]
    cases outcome with
    | err => exact h
    | empty => exact h
    | found p => exact h

theorem invScore_startNewTeam (g : GameState) (reset : Bool)
    (h : InvScore g) : InvScore (startNewTeam g reset) := by
  unfold startNewTeam
  cases reset with
  | true => exact ⟨le_refl 0, le_refl 0⟩
  | false => exact ⟨h.1, h.1⟩

theorem invScore_setTeamMode (g : GameState) (mode : TeamMode)
    (h : InvScore g) : InvScore (setTeamMode g mode) := by
  unfold setTeamMode
  by_cases hm : g.team.mode = mode
  · rw [if_pos hm]; exact h
  · rw [if_neg hm]
    exact invScore_startNewTeam _ _ ⟨h.1, h.2⟩

theorem invScore_step {g g' : GameState} (h : InvScore g) (s : TeamStep g g') :
    InvScore g' := by
  cases s with
  | select stat => exact invScore_selectStat _ stat h
  | generate outcome oracle => exact invScore_generate _ outcome oracle h
  | newTeam reset => exact invScore_startNewTeam _ reset h
  | setMode mode => exact invScore_setTeamMode _ mode h

theorem invScore_init (store : KVStore) (h : Int) (hn : 0 ≤ h) :
    InvScore (initState store h) := ⟨hn, hn⟩

theorem invScore_reachFrom {g0 g : GameState} (h0 : InvScore g0)
    (r : ReachFrom g0 g) : InvScore g := by
  induction r with
  | refl => exact h0
  | step _ s ih => exact invScore_step ih s

theorem invScore_reachableNN {g : GameState} (h : TeamReachableNN g) :
    InvScore g := by
  obtain ⟨store, hs, hnn, _, hr⟩ := h
  exact invScore_reachFrom (invScore_init store hs hnn) hr

/-! ### Claim theorems -/

/-- C1: in every reachable session state, `currentScore` equals the exact
integer sum of `selectedStatValue` over the roster (a missing stat key in
the bundle contributes 0 via the `?? 0` read), hence after any N successful
selections committing values v1..vN since the last reset the score is
v1 + ... + vN. -/
theorem claim_score_additivity (g : GameState) (h : TeamReachable g) :
    g.team.currentScore = teamScoreSum g.team.team :=
  (invCore_reachable h).1

theorem claim_score_additivity_witness :
    sampleG2.team.currentScore = teamScoreSum sampleG2.team.team :=
  claim_score_additivity sampleG2
    ⟨[], 0, rfl,
      ReachFrom.step
        (ReachFrom.step ReachFrom.refl
          (TeamStep.generate sampleG0 (GenOutcome.found samplePokemon) orcFail))
        (TeamStep.select sampleG1 CoreStatKey.hp)⟩

/-- C2: in every reachable session state, calling `selectStat` on a key
already in `usedStats` commits nothing and leaves the whole state (roster,
scores, usedStats, currentCandidate, store) exactly unchanged, and no
StatKey is ever committed twice across the roster. -/
theorem claim_stat_uniqueness (g : GameState) (h : TeamReachable g) :
    (∀ stat ∈ g.team.usedStats, selectStat g stat = g) ∧
    (g.team.team.map (fun p => p.selectedStat)).Nodup := by
  refine ⟨?_, (invCore_reachable h).2.1⟩
  intro stat hs
  exact selectStat_used g stat hs

theorem claim_stat_uniqueness_witness :
    selectStat sampleG2 CoreStatKey.hp = sampleG2 ∧
    (sampleG2.team.team.map (fun p => p.selectedStat)).Nodup := by
  have h := claim_stat_uniqueness sampleG2
    ⟨[], 0, rfl,
      ReachFrom.step
        (ReachFrom.step ReachFrom.refl
          (TeamStep.generate sampleG0 (GenOutcome.found samplePokemon) orcFail))
        (TeamStep.select sampleG1 CoreStatKey.hp)⟩
  exact ⟨h.1 CoreStatKey.hp (by decide), h.2⟩

/-- C3 counterexample: the claim fails as stated.  A page load over a store
holding "-1" under the visible-mode key is a reachable session state with
highScore -1; a (rejected) selectStat call leaves it unchanged, so after
the call highScore < currentScore. -/
theorem claim_highscore_bound_cex :
    loadHighScore [("highScore_visible", "-1")] DEFAULT_TEAM_MODE = some (-1) ∧
    TeamReachable (initState [("highScore_visible", "-1")] (-1)) ∧
    (selectStat (initState [("highScore_visible", "-1")] (-1)) CoreStatKey.hp).team.highScore
      < (selectStat (initState [("highScore_visible", "-1")] (-1)) CoreStatKey.hp).team.currentScore := by
  refine ⟨by decide, ⟨[("highScore_visible", "-1")], -1, by decide, ReachFrom.refl⟩, by decide⟩

/-- C3 (amended): provided the high score initially loaded from storage is
non-negative (which holds whenever the stored value was written by the
application itself), after every selectStat call - successful or rejected -
`highScore >= currentScore`; and whenever a successful selectStat makes the
score exceed the previous high score, the high score becomes that score and
it is persisted at once under the active mode's key. -/
theorem claim_highscore_bound (g : GameState) (stat : CoreStatKey)
    (h : TeamReachableNN g) :
    (selectStat g stat).team.currentScore ≤ (selectStat g stat).team.highScore ∧
    (∀ p st, g.team.currentPokemon = some p → p.stats = some st →
      stat ∉ g.team.usedStats →
      g.team.currentScore + (st.get stat).getD 0 > g.team.highScore →
      (selectStat g stat).team.highScore
          = g.team.currentScore + (st.get stat).getD 0 ∧
      getItem (selectStat g stat).store (getHighScoreKey g.team.mode)
          = some (intToString (g.team.currentScore + (st.get stat).getD 0))) := by
  constructor
  · exact (invScore_selectStat g stat (invScore_reachableNN h)).2
  · intro p st hcp hst hmem hgt
    rw [selectStat_commit g stat p st hcp hst hmem]
    constructor
    · simp only [commitState]
      rw [if_pos hgt]
    · simp only [commitState]
      rw [if_pos hgt]
      unfold saveHighScore
      exact getItem_setItem_same _ _ _

theorem claim_highscore_bound_witness :
    (selectStat sampleG1 CoreStatKey.hp).team.currentScore
      ≤ (selectStat sampleG1 CoreStatKey.hp).team.highScore ∧
    (selectStat sampleG1 CoreStatKey.hp).team.highScore
      = sampleG1.team.currentScore + ((defaultPokemonStats.get CoreStatKey.hp).getD 0) ∧
    getItem (selectStat sampleG1 CoreStatKey.hp).store (getHighScoreKey sampleG1.team.mode)
      = some (intToString (sampleG1.team.currentScore
          + ((defaultPokemonStats.get CoreStatKey.hp).getD 0))) := by
  have h := claim_highscore_bound sampleG1 CoreStatKey.hp
    ⟨[], 0, by decide, rfl,
      ReachFrom.step ReachFrom.refl
        (TeamStep.generate sampleG0 (GenOutcome.found samplePokemon) orcFail)⟩
  have h2 := h.2 samplePokemonWithStats defaultPokemonStats (by decide) rfl
    (by decide) (by decide)
  exact ⟨h.1, h2.1, h2.2⟩

/-- C4: whenever the roster holds at least TEAM_SIZE (6) members,
`generateTeamPokemon` is a complete no-op (no candidate fetched or set, no
state change), and in every reachable session state the roster never
exceeds 6 - so a full roster stays at exactly 6 until a new team starts. -/
theorem claim_capacity_cap (g : GameState) (outcome : GenOutcome)
    (oracle : String → FetchOutcome) :
    (g.team.team.length ≥ TEAM_SIZE → generateTeamPokemon g outcome oracle = g) ∧
    (TeamReachable g → g.team.team.length ≤ TEAM_SIZE) := by
  constructor
  · intro hfull
    unfold generateTeamPokemon
    rw [if_pos hfull]
  · intro hr
    exact (invCore_reachable hr).2.2.2.1

theorem claim_capacity_cap_witness :
    generateTeamPokemon sampleFullG GenOutcome.empty orcFail = sampleFullG ∧
    sampleG0.team.team.length ≤ TEAM_SIZE :=
  ⟨(claim_capacity_cap sampleFullG GenOutcome.empty orcFail).1 (by decide),
   (claim_capacity_cap sampleG0 GenOutcome.empty orcFail).2 ⟨[], 0, rfl, ReachFrom.refl⟩⟩

/-- C5: `setTeamMode` is a no-op on the current mode; on a different mode it
switches the mode and performs a full reset in which the roster empties,
the score and high score become 0, and 0 is persisted under the new mode's
key - overwriting any previously stored value for that mode, which is never
loaded. -/
theorem claim_mode_switch (g : GameState) (mode : TeamMode) :
    (g.team.mode = mode → setTeamMode g mode = g) ∧
    (g.team.mode ≠ mode →
      (setTeamMode g mode).team.mode = mode ∧
      (setTeamMode g mode).team.team = [] ∧
      (setTeamMode g mode).team.currentScore = 0 ∧
      (setTeamMode g mode).team.currentPokemon = none ∧
      (setTeamMode g mode).team.usedStats = ∅ ∧
      (setTeamMode g mode).team.highScore = 0 ∧
      getItem (setTeamMode g mode).store (getHighScoreKey mode)
        = some (intToString 0)) := by
  constructor
  · intro h
    unfold setTeamMode
    rw [if_pos h]
  · intro h
    unfold setTeamMode
    rw [if_neg h]
    refine ⟨rfl, rfl, rfl, rfl, rfl, rfl, ?_⟩
    exact getItem_setItem_same _ _ _

theorem claim_mode_switch_witness :
    (setTeamMode (initState [("highScore_hidden", "123")] 0) TeamMode.hidden).team.mode
      = TeamMode.hidden ∧
    (setTeamMode (initState [("highScore_hidden", "123")] 0) TeamMode.hidden).team.team = [] ∧
    (setTeamMode (initState [("highScore_hidden", "123")] 0) TeamMode.hidden).team.currentScore = 0 ∧
    (setTeamMode (initState [("highScore_hidden", "123")] 0) TeamMode.hidden).team.highScore = 0 ∧
    getItem (setTeamMode (initState [("highScore_hidden", "123")] 0) TeamMode.hidden).store
        (getHighScoreKey TeamMode.hidden) = some (intToString 0) := by
  have h := (claim_mode_switch (initState [("highScore_hidden", "123")] 0)
    TeamMode.hidden).2 (by decide)
  exact ⟨h.1, h.2.1, h.2.2.1, h.2.2.2.2.2.1, h.2.2.2.2.2.2⟩

/-- C6: `fetchPokemonStats` never propagates an internal failure: whenever
the fetch outcome makes the try block throw (rejected fetch, non-ok
response, malformed body), the result is exactly the default bundle with
all six stats 50 and absent sprite fields, which render as empty URLs. -/
theorem claim_fetch_fallback (oracle : String → FetchOutcome) (pokemonId : Nat)
    (formName : Option String)
    (h : fetchFails (oracle (pokeApiUrl pokemonId formName)) = true) :
    fetchPokemonStats oracle pokemonId formName = defaultPokemonStats ∧
    defaultPokemonStats =
      { hp := some 50, attack := some 50, defense := some 50,
        specialAttack := some 50, specialDefense := some 50, speed := some 50,
        spriteUrl := none, shinySpriteUrl := none } ∧
    defaultPokemonStats.spriteUrl.getD "" = "" ∧
    defaultPokemonStats.shinySpriteUrl.getD "" = "" := by
  refine ⟨?_, rfl, rfl, rfl⟩
  unfold fetchPokemonStats
  cases ho : oracle (pokeApiUrl pokemonId formName) with
  | throwErr => rfl
  | response ok data =>
    cases ok with
    | false => rfl
    | true =>
      cases data with
      | malformed => rfl
      | wellFormed s a b c d =>
        rw [ho] at h
        simp [fetchFails] at h

theorem claim_fetch_fallback_witness :
    fetchPokemonStats orcFail 1 none = defaultPokemonStats ∧
    defaultPokemonStats =
      { hp := some 50, attack := some 50, defense := some 50,
        specialAttack := some 50, specialDefense := some 50, speed := some 50,
        spriteUrl := none, shinySpriteUrl := none } ∧
    defaultPokemonStats.spriteUrl.getD "" = "" ∧
    defaultPokemonStats.shinySpriteUrl.getD "" = "" :=
  claim_fetch_fallback orcFail 1 none rfl

/-- C7 counterexample: the claim "sets currentCandidate to null" fails on
the code.  From the reachable state with a pending candidate, a generation
call whose source yields no candidate leaves `currentPokemon` untouched -
the source only calls `displayPokemon(null)` and never assigns the field -
so the candidate is still non-null afterwards. -/
theorem claim_generate_empty_cex :
    TeamReachable sampleG1 ∧
    sampleG1.team.currentPokemon ≠ none ∧
    (generateTeamPokemon sampleG1 GenOutcome.empty orcFail).team.currentPokemon ≠ none := by
  refine ⟨⟨[], 0, rfl,
    ReachFrom.step ReachFrom.refl
      (TeamStep.generate sampleG0 (GenOutcome.found samplePokemon) orcFail)⟩,
    by decide, by decide⟩

/-- C7 (amended): when the PokemonSource yields no candidate (empty result
or thrown error), `generateTeamPokemon` leaves the entire session state -
roster, scores, usedStats, store, and also `currentCandidate`, which stays
whatever it was (null at every organic call site) - exactly unchanged,
only signalling the no-candidate condition to the UI. -/
theorem claim_generate_empty (g : GameState) (oracle : String → FetchOutcome) :
    generateTeamPokemon g GenOutcome.empty oracle = g ∧
    generateTeamPokemon g GenOutcome.err oracle = g := by
  unfold generateTeamPokemon
  by_cases hfull : g.team.team.length ≥ TEAM_SIZE
  · rw [if_pos hfull]
    exact ⟨rfl, rfl⟩
  · rw [if_neg hfull]
    exact ⟨rfl, rfl⟩

/-- C8 counterexample: with "abc" stored under the key, `loadHighScore`
returns NaN (modelled `none`) - the JS `parseInt` result on an unparsable
nonempty string - and not the integer 0 the claim requires. -/
theorem claim_load_unparsable_cex :
    loadHighScore [("highScore_visible", "abc")] TeamMode.visible = none ∧
    (none : Option Int) ≠ some 0 := by
  exact ⟨by decide, by decide⟩

/-- C8 (amended): `loadHighScore` returns 0 when the stored value is absent
or the empty string; when a stored string is the rendering of an integer it
returns exactly that integer; but a nonempty string with no parsable
leading integer yields NaN (`none`), not 0. -/
theorem claim_load_highscore (store : KVStore) (mode : TeamMode) :
    (getItem store (getHighScoreKey mode) = none → loadHighScore store mode = some 0) ∧
    (getItem store (getHighScoreKey mode) = some "" → loadHighScore store mode = some 0) ∧
    (∀ n : Int, getItem store (getHighScoreKey mode) = some (intToString n) →
      loadHighScore store mode = some n) := by
  refine ⟨?_, ?_, ?_⟩
  · intro h
    simp only [loadHighScore, h]
  · intro h
    simp only [loadHighScore, h, if_true]
  · intro n h
    simp only [loadHighScore, h]
    rw [if_neg (intToString_ne_empty n)]
    exact parseIntJs_intToString n

theorem claim_load_highscore_witness :
    loadHighScore [] TeamMode.visible = some 0 ∧
    loadHighScore [("highScore_visible", "7")] TeamMode.visible = some 7 := by
  constructor
  · exact (claim_load_highscore [] TeamMode.visible).1 (by decide)
  · have h := (claim_load_highscore [("highScore_visible", "7")] TeamMode.visible).2.2
      7 (by decide)
    exact h

/-- C9: the stat-lookup identifier implements exactly the first-match-wins
policy of the specification: base and form slugs are derived from the form
name, the ordered rule table (mega-x, mega-y, mega, gigantamax, then the
regions alola/galar/hisui/paldea) picks the first pattern contained in the
form slug, an unmatched form falls back to the full form slug, and a
missing (or empty, hence falsy) form name yields the numeric id. -/
theorem claim_identifier_policy (pokemonId : Nat) (formName : Option String) :
    derivePokemonIdentifier pokemonId formName
      = identifierPolicySpec pokemonId formName := by
  cases formName with
  | none => rfl
  | some fn =>
    by_cases h0 : fn = ""
    · simp [derivePokemonIdentifier, identifierPolicySpec, h0]
    · simp only [derivePokemonIdentifier, identifierPolicySpec, if_neg h0,
        firstMatch, policyRules]
      by_cases h1 : listContains (formSlugOf fn) ("mega-x".data)
      · simp [h1]
      by_cases h2 : listContains (formSlugOf fn) ("mega-y".data)
      · simp [h1, h2]
      by_cases h3 : listContains (formSlugOf fn) ("mega".data)
      · simp [h1, h2, h3]
      by_cases h4 : listContains (formSlugOf fn) ("gigantamax".data)
      · simp [h1, h2, h3, h4]
      by_cases h5 : listContains (formSlugOf fn) ("alola".data)
      · simp [h1, h2, h3, h4, h5]
      by_cases h6 : listContains (formSlugOf fn) ("galar".data)
      · simp [h1, h2, h3, h4, h5, h6]
      by_cases h7 : listContains (formSlugOf fn) ("hisui".data)
      · simp [h1, h2, h3, h4, h5, h6, h7]
      by_cases h8 : listContains (formSlugOf fn) ("paldea".data)
      · simp [h1, h2, h3, h4, h5, h6, h7, h8]
      simp [h1, h2, h3, h4, h5, h6, h7, h8]

/-- C10: saving a non-negative score under a mode's key and loading that
mode returns exactly the saved integer, and the other mode's loaded value
is untouched. -/
theorem claim_save_load_roundtrip (store : KVStore) (mode mode' : TeamMode)
    (n : Int) (hn : 0 ≤ n) (hne : mode' ≠ mode) :
    loadHighScore (saveHighScore store mode n) mode = some n ∧
    loadHighScore (saveHighScore store mode n) mode' = loadHighScore store mode' := by
  constructor
  · simp only [loadHighScore, saveHighScore, getItem_setItem_same]
    rw [if_neg (intToString_ne_empty n)]
    exact parseIntJs_intToString n
  · have hk : getHighScoreKey mode ≠ getHighScoreKey mode' :=
      getHighScoreKey_injective mode mode' (Ne.symm hne)
    simp only [loadHighScore, saveHighScore, getItem_setItem_ne _ _ _ _ hk]

theorem claim_save_load_roundtrip_witness :
    loadHighScore (saveHighScore [] TeamMode.visible 7) TeamMode.visible = some 7 ∧
    loadHighScore (saveHighScore [] TeamMode.visible 7) TeamMode.hidden
      = loadHighScore [] TeamMode.hidden :=
  claim_save_load_roundtrip [] TeamMode.visible TeamMode.hidden 7 (by decide) (by decide)
